import Mathlib

/-!
Shallow embedding of `job_scraper.py` (class `JobScraper`) and proofs about it.

The program is a scrape-extract-dedupe-enrich-persist pipeline:
`run_scraper` fetches an index page, parses job cards out of it
(`extract_jobs_from_html`), and for each card checks the MongoDB store for a
record with the same `url` (`find_one`), fetches and cleans the detail page
(`extract_full_text`), asks an external endpoint for a summary
(`summarize_with_mistral`), categorizes the title (`categorize_job`) and
inserts a record (`insert_one`).

External effects (HTTP fetches, the MongoDB store, the summarization
endpoint, the clock) are modelled as an explicit environment of oracles; the
store is an explicit list of records threaded through the run.  Python
strings are modelled as Lean `String`, with the Python operations
(`strip`, `split`, `lower`, the `in` substring test) re-implemented over
`List Char` by structural recursion so that every definition evaluates
inside the kernel.  HTML documents are modelled as already-parsed trees
(`Node`), since markup parsing is delegated to BeautifulSoup; a document is
the list of top-level nodes, matching BeautifulSoup's document object whose
element descendants are searched by `find_all` / `find`.
-/

/-! ## Python string primitives -/

/-- Python `str.strip()` whitespace set (space, tab, newline, carriage
return, vertical tab, form feed). -/
def pyIsSpace (c : Char) : Bool :=
  c == ' ' || c == '\t' || c == '\n' || c == '\r' || c == Char.ofNat 11 || c == Char.ofNat 12

/-- Python `str.strip()`: remove leading and trailing whitespace. -/
def pyStrip (s : String) : String :=
  ⟨((s.data.dropWhile pyIsSpace).reverse.dropWhile pyIsSpace).reverse⟩

/-- Splitting a character list on the explicit separator `'\n'`, Python
`"…".split("\n")` semantics: the empty string yields `[""]`. -/
def splitNl : List Char → List (List Char)
  | [] => [[]]
  | c :: cs =>
    let r := splitNl cs
    if c == '\n' then [] :: r
    else match r with
      | [] => [[c]]
      | p :: ps => (c :: p) :: ps

/-- Python `s.split("\n")`. -/
def pySplitNl (s : String) : List String := (splitNl s.data).map (⟨·⟩)

/-- Whether `pat` occurs as a contiguous run inside the character list. -/
def listHasInfix (pat : List Char) : List Char → Bool
  | [] => pat.isEmpty
  | c :: rest => pat.isPrefixOf (c :: rest) || listHasInfix pat rest

/-- Python `pat in hay` on strings: substring containment. -/
def pyContainsSub (hay pat : String) : Bool := listHasInfix pat.data hay.data

/-- Python `str.lower()` on one character, modelled for ASCII `A`–`Z` and the
Latin-1 uppercase range `À`–`Þ` (excluding `×`), which covers the French
text this scraper handles. -/
def pyLowerChar (c : Char) : Char :=
  if 'A' ≤ c && c ≤ 'Z' then Char.ofNat (c.toNat + 32)
  else if 0xC0 ≤ c.toNat && c.toNat ≤ 0xDE && c.toNat != 0xD7 then Char.ofNat (c.toNat + 32)
  else c

/-- Python `str.lower()`. -/
def pyLower (s : String) : String := ⟨s.data.map pyLowerChar⟩

/-- Join a list of character lists with single `'\n'` separators
(`"\n".join` / BeautifulSoup `get_text(separator="\n")`). -/
def joinNl : List (List Char) → List Char
  | [] => []
  | [p] => p
  | p :: q :: rest => p ++ '\n' :: joinNl (q :: rest)

/-! ## Python exceptions

The exception kinds that the scraper's code paths can raise.  `dbError`
stands for a pymongo connectivity / write failure. -/

inductive PyErr where
  | attrError
  | keyError
  | typeError
  | indexError
  | dbError
deriving DecidableEq, Repr

/-! ## HTML documents

An already-parsed markup tree.  A document, as handed around by
BeautifulSoup, is a list of top-level nodes; `find_all` / `find` search the
element descendants in document order. -/

inductive Node where
  | text (s : String)
  | elem (tag : String) (attrs : List (String × String)) (children : List Node)

/-- Attribute lookup on an element (`None`-free variant of BeautifulSoup's
`tag[attr]`, which raises `KeyError` when absent — the raising is modelled
at the use site). -/
def nodeAttr (n : Node) (key : String) : Option String :=
  match n with
  | .text _ => none
  | .elem _ attrs _ => (attrs.find? (fun a => a.1 == key)).map (·.2)

mutual

/-- The element descendants of a node, in document order (preorder), the
node itself excluded — BeautifulSoup `tag.find_all(...)` search space. -/
def descendants : Node → List Node
  | .text _ => []
  | .elem _ _ cs => descendantsList cs

/-- The nodes of a forest and all their descendants, in document order —
BeautifulSoup `soup.find_all(...)` search space for a document. -/
def descendantsList : List Node → List Node
  | [] => []
  | c :: cs => c :: descendants c ++ descendantsList cs

end

mutual

/-- BeautifulSoup `tag.text` / `get_text()`: concatenation of every
descendant text node, in document order. -/
def nodeText : Node → String
  | .text s => s
  | .elem _ _ cs => ⟨nodeTextList cs⟩

/-- Character contents of a forest, concatenated in document order. -/
def nodeTextList : List Node → List Char
  | [] => []
  | c :: cs => (nodeText c).data ++ nodeTextList cs

end

/-- Python `str.split()` on whitespace runs, dropping empty tokens — how an
HTML `class` attribute value is tokenized into classes. -/
def wsTokensAux : List Char → List Char → List (List Char)
  | acc, [] => if acc.isEmpty then [] else [acc.reverse]
  | acc, c :: cs =>
    if pyIsSpace c then
      if acc.isEmpty then wsTokensAux [] cs else acc.reverse :: wsTokensAux [] cs
    else wsTokensAux (c :: acc) cs

/-- The class tokens of an HTML `class` attribute value. -/
def wsTokens (s : String) : List (List Char) := wsTokensAux [] s.data

/-- BeautifulSoup matcher `find_all("div", class_=cls)`: an element with tag
`div` whose `class` attribute contains the token `cls`. -/
def isDivWithClass (cls : String) (n : Node) : Bool :=
  match n with
  | .text _ => false
  | .elem tag _ _ =>
    tag == "div" &&
      (match nodeAttr n "class" with
       | none => false
       | some v => (wsTokens v).any (fun t => t == cls.data))

/-- BeautifulSoup matcher `find(tag)` / `find_all(tag)`: tag name only. -/
def hasTag (t : String) (n : Node) : Bool :=
  match n with
  | .text _ => false
  | .elem tag _ _ => tag == t

/-- BeautifulSoup `tag.find(...)`: first matching descendant. -/
def findFirst (p : Node → Bool) (n : Node) : Option Node :=
  (descendants n).find? p

/-! ## `categorize_job` (job_scraper.py lines 33–50) -/

/-- The fixed ordered category table of `categorize_job`.  Python dicts
iterate in insertion order, so the table is an ordered association list. -/
def categories : List (String × List String) :=
  [("Informatique / IT", ["développeur", "it", "digital", "logiciel", "technicien"]),
   ("Finance / Comptabilité", ["finance", "comptable", "audit", "gestion des risques"]),
   ("Communication / Marketing", ["communication", "marketing", "publicité"]),
   ("Conseil / Stratégie", ["consultant", "analyse", "conseil", "business"]),
   ("Transport / Logistique", ["transport", "logistique", "mobilité"]),
   ("Ingénierie / BTP", ["ingénieur", "technicien", "construction", "chantier"]),
   ("Santé / Médical", ["santé", "hôpital", "médecin", "infirmier", "pharmacie"])]

/-- `JobScraper.categorize_job`: lower-case the title, walk the category
table in order, return the first category one of whose keywords occurs as a
substring of the lowered title; `"Autre"` when none matches. -/
def categorize_job (title : String) : String :=
  let title_lower := pyLower title
  match categories.find? (fun c => c.2.any (fun w => pyContainsSub title_lower w)) with
  | some c => c.1
  | none => "Autre"

/-! ## `extract_jobs_from_html` (job_scraper.py lines 62–85) -/

/-- A parsed listing, the dict appended to `jobs` at lines 79–84. -/
structure Job where
  title : String
  company : String
  location : String
  url : String
deriving DecidableEq, Repr

/-- Per-card body of `extract_jobs_from_html`'s inner loop (lines 69–84).

Line 70 evaluates `job_card.find("a").text` with no guard: when the card
has no anchor, `find("a")` is `None` and the attribute access raises
`AttributeError`.  Line 77 re-runs `find("a")` and guards it
(`if link_element else "N/A"`), and `link_element["href"]` raises
`KeyError` when the anchor has no `href` attribute. -/
def extractJobFromCard (card : Node) : Except PyErr Job :=
  let title_element := findFirst (hasTag "p") card
  match findFirst (hasTag "a") card with
  | none => .error .attrError
  | some a =>
    let company_location := pySplitNl (pyStrip (nodeText a))
    let title := match title_element with
      | some t => pyStrip (nodeText t)
      | none => "N/A"
    let company := if company_location.length > 0 then pyStrip (company_location.getD 0 "") else "N/A"
    let location := if company_location.length > 1 then pyStrip (company_location.getD 1 "") else "N/A"
    match findFirst (hasTag "a") card with
    | some link_element =>
      match nodeAttr link_element "href" with
      | some href => .ok ⟨title, company, location, "https://www.mediacongo.net/" ++ href⟩
      | none => .error .keyError
    | none => .ok ⟨title, company, location, "N/A"⟩

/-- Fold the card loop over a list of cards, propagating any exception. -/
def extractJobsFromCards : List Node → Except PyErr (List Job)
  | [] => .ok []
  | card :: rest => do
    let j ← extractJobFromCard card
    let js ← extractJobsFromCards rest
    pure (j :: js)

/-- The `Cols3_item` cards of one `Cols3` container, then across containers
(the two nested `find_all` loops of lines 67–68). -/
def listingCards (doc : List Node) : List Node :=
  ((descendantsList doc).filter (isDivWithClass "Cols3")).flatMap
    (fun d => (descendants d).filter (isDivWithClass "Cols3_item"))

/-- `JobScraper.extract_jobs_from_html`: parse every listing card of the
index document, in document order; an exception in any card aborts the
whole extraction (there is no handler in the function or its caller). -/
def extract_jobs_from_html (doc : List Node) : Except PyErr (List Job) :=
  extractJobsFromCards (listingCards doc)

/-! ## `extract_full_text` (job_scraper.py lines 87–101) -/

/-- The tags deleted (with their subtrees) before text extraction, line 95. -/
def bannedTags : List String :=
  ["script", "style", "noscript", "iframe", "meta", "header", "footer"]

/-- Whether a node is an element with one of the banned tags. -/
def isBannedElem (n : Node) : Bool :=
  match n with
  | .text _ => false
  | .elem tag _ _ => bannedTags.any (fun b => b == tag)

mutual

/-- `tag.extract()` applied to one node: a banned-tag element is removed
together with everything below it (empty result), any other node is kept
with the stripping recursing into its children. -/
def stripTop : Node → List Node
  | .text s => [.text s]
  | .elem tag attrs gs =>
    if bannedTags.any (fun b => b == tag) then []
    else [.elem tag attrs (stripTagsList gs)]

/-- Tag stripping over a forest: the document after the
`for tag in soup([...]): tag.extract()` loop of line 95. -/
def stripTagsList : List Node → List Node
  | [] => []
  | c :: cs => stripTop c ++ stripTagsList cs

end

mutual

/-- The text-node strings of a subtree in document order — the strings
BeautifulSoup's `get_text` walks over. -/
def pieces : Node → List String
  | .text s => [s]
  | .elem _ _ cs => piecesList cs

/-- The text-node strings of a forest in document order. -/
def piecesList : List Node → List String
  | [] => []
  | c :: cs => pieces c ++ piecesList cs

end

/-- BeautifulSoup `soup.get_text(separator="\n", strip=True)`: every text
node is stripped, empty results are dropped, and the survivors are joined
with `"\n"`. -/
def getTextStripped (doc : List Node) : String :=
  ⟨joinNl (((piecesList doc).map (fun s => (pyStrip s).data)).filter (fun p => !p.isEmpty))⟩

/-- `JobScraper.extract_full_text`, with the HTTP fetch factored out: the
argument is the parsed detail page when the GET succeeded with 2xx, `none`
when `requests` raised (caught at line 99, returning `None`).  On a fetched
page: remove banned-tag subtrees, then collect the stripped text. -/
def extract_full_text (fetched : Option (List Node)) : Option String :=
  match fetched with
  | none => none
  | some doc => some (getTextStripped (stripTagsList doc))

mutual

/-- The text-node strings of a subtree that are outside every banned-tag
element — the spec's description of what `extractText` may return. -/
def cleanPieces : Node → List String
  | .text s => [s]
  | .elem tag _ cs =>
    if bannedTags.any (fun b => b == tag) then [] else cleanPiecesList cs

/-- Text-node strings outside banned-tag elements, over a forest. -/
def cleanPiecesList : List Node → List String
  | [] => []
  | c :: cs => cleanPieces c ++ cleanPiecesList cs

end

mutual

/-- No element of the subtree (the node included) carries a banned tag. -/
def noBanned : Node → Bool
  | .text _ => true
  | .elem tag _ cs => !(bannedTags.any (fun b => b == tag)) && noBannedList cs

/-- No element anywhere in the forest carries a banned tag. -/
def noBannedList : List Node → Bool
  | [] => true
  | c :: cs => noBanned c && noBannedList cs

end

/-! ## `summarize_with_mistral` (job_scraper.py lines 103–130)

The endpoint's behaviour is a `TransportResult`: either `requests.post`
raised, or it returned a response with an HTTP status and a body that is
valid JSON (`some` a value) or not (`response.json()` raises
`JSONDecodeError`).  JSON values are `JVal`; a JSON `null` parses to the
Python object `None`. -/

inductive JVal where
  | null
  | bool (b : Bool)
  | str (s : String)
  | num (n : Int)
  | arr (items : List JVal)
  | obj (fields : List (String × JVal))

/-- One call's observable endpoint behaviour. -/
inductive TransportResult where
  | raised
  | response (status : Nat) (body : Option JVal)

/-- Python `key in v` for a string key against a parsed-JSON value:
key membership on a dict, element equality on a list (a non-string element
is simply unequal), substring test on a string, `TypeError` otherwise. -/
def pyInOp (key : String) (v : JVal) : Except PyErr Bool :=
  match v with
  | .obj fs => .ok (fs.any (fun f => f.1 == key))
  | .arr xs => .ok (xs.any (fun x => match x with | .str s => s == key | _ => false))
  | .str s => .ok (pyContainsSub s key)
  | _ => .error .typeError

/-- Python `v[key]` for a string key: dict lookup (`KeyError` when absent),
`TypeError` on lists, strings and scalars (JSON-parsed dict keys are
strings). -/
def pyIndexStr (v : JVal) (key : String) : Except PyErr JVal :=
  match v with
  | .obj fs =>
    match fs.find? (fun f => f.1 == key) with
    | some f => .ok f.2
    | none => .error .keyError
  | _ => .error .typeError

/-- Python `v[0]`: head of a list (`IndexError` when empty), first character
of a string, `KeyError` on a JSON-parsed dict (string keys only),
`TypeError` on scalars. -/
def pyIndexZero (v : JVal) : Except PyErr JVal :=
  match v with
  | .arr [] => .error .indexError
  | .arr (x :: _) => .ok x
  | .str s =>
    match s.data with
    | [] => .error .indexError
    | c :: _ => .ok (.str ⟨[c]⟩)
  | .obj _ => .error .keyError
  | _ => .error .typeError

/-- `JobScraper.summarize_with_mistral`, as a function of the endpoint's
behaviour for the request it sends.  Faithful to lines 105–130:

* the HTTP status is never inspected (there is no `raise_for_status`);
* a transport exception or invalid-JSON body is caught and yields `None`;
* a body without a `"choices"` member yields `None` (line 120–122);
* otherwise the chain `response_data["choices"][0]["message"]["content"]`
  is evaluated; any exception in it is caught by the blanket
  `except Exception` (line 128) and yields `None`;
* a JSON `null` content is the Python object `None`, so it is
  indistinguishable from the failure signal at the caller. -/
def summarize_with_mistral (tr : TransportResult) : Option JVal :=
  match tr with
  | .raised => none
  | .response _ none => none
  | .response _ (some data) =>
    match pyInOp "choices" data with
    | .error _ => none
    | .ok false => none
    | .ok true =>
      match (pyIndexStr data "choices").bind
              (fun c => (pyIndexZero c).bind
                (fun c0 => (pyIndexStr c0 "message").bind
                  (fun m => pyIndexStr m "content"))) with
      | .error _ => none
      | .ok .null => none
      | .ok v => some v

/-! ## The pipeline (`run_scraper`, job_scraper.py lines 132–179) -/

/-- The document persisted by `insert_one` (lines 165–173).  `created_at`
is the `datetime.utcnow()` instant, modelled as a numeric timestamp. -/
structure JobRecord where
  title : String
  company : String
  location : String
  url : String
  resume : JVal
  category : String
  created_at : Nat

/-- The MongoDB `jobs` collection: the list of inserted records. -/
abbrev Store := List JobRecord

/-- `find_one({"url": u})` is truthy iff some stored record has that url. -/
def storeHas (s : Store) (u : String) : Bool :=
  s.any (fun r => r.url == u)

/-- Number of stored records carrying a given url. -/
def countUrl (s : Store) (u : String) : Nat :=
  (s.filter (fun r => r.url == u)).length

/-- The run's external collaborators, fixed for the duration of a run:

* `indexDoc` — result of `fetch_html()`: the parsed index page, or `none`
  when `requests` raised (caught at line 58, returning `None`);
* `detailDoc` — per detail url, the parsed detail page fetched inside
  `extract_full_text`, or `none` when that GET raised;
* `mistralResp` — per prompt text, the summarization endpoint's behaviour;
* `findOneRaises` — whether pymongo's `find_one` raises a connectivity
  error when queried for a url (line 149 has no exception handler);
* `insertRaises` — whether `insert_one` raises for a url (caught at
  line 178);
* `now` — the clock read for `created_at`. -/
structure Env where
  indexDoc : Option (List Node)
  detailDoc : String → Option (List Node)
  mistralResp : String → TransportResult
  findOneRaises : String → Bool
  insertRaises : String → Bool
  now : Nat

/-- Observable collaborator calls made while processing listings. -/
inductive Event where
  | findOneCall (url : String)
  | detailFetch (url : String)
  | mistralCall (url : String)
  | insertDone (url : String)
  | insertFailed (url : String)
deriving DecidableEq, Repr

/-- Outcome of a run: the store afterwards, the collaborator calls in
order, and `some e` when the run terminated by an uncaught exception `e`
(inserts made before the exception persist). -/
structure RunResult where
  store : Store
  trace : List Event
  err : Option PyErr

/-- Prefix a run outcome with the events of an already-processed listing. -/
def withEvents (evs : List Event) (r : RunResult) : RunResult :=
  ⟨r.store, evs ++ r.trace, r.err⟩

/-- The per-listing loop of `run_scraper` (lines 144–179).  For each job in
order: `find_one` duplicate check (an exception here is uncaught and aborts
the whole run), skip when present; fetch + clean the detail page, skip when
`None` or empty (`if not job_text`); summarize, skip when `None`
(`if resumeAI is None`); categorize the title; insert the record, an
insert exception being caught and logged (lines 175–179). -/
def processJobs (env : Env) : List Job → Store → RunResult
  | [], s => ⟨s, [], none⟩
  | job :: rest, s =>
    if env.findOneRaises job.url then
      ⟨s, [.findOneCall job.url], some .dbError⟩
    else if storeHas s job.url then
      withEvents [.findOneCall job.url] (processJobs env rest s)
    else
      match extract_full_text (env.detailDoc job.url) with
      | none =>
        withEvents [.findOneCall job.url, .detailFetch job.url] (processJobs env rest s)
      | some txt =>
        if txt == "" then
          withEvents [.findOneCall job.url, .detailFetch job.url] (processJobs env rest s)
        else
          match summarize_with_mistral (env.mistralResp txt) with
          | none =>
            withEvents [.findOneCall job.url, .detailFetch job.url, .mistralCall job.url]
              (processJobs env rest s)
          | some resumeAI =>
            if env.insertRaises job.url then
              withEvents
                [.findOneCall job.url, .detailFetch job.url, .mistralCall job.url,
                 .insertFailed job.url]
                (processJobs env rest s)
            else
              withEvents
                [.findOneCall job.url, .detailFetch job.url, .mistralCall job.url,
                 .insertDone job.url]
                (processJobs env rest
                  (s ++ [⟨job.title, job.company, job.location, job.url, resumeAI,
                          categorize_job job.title, env.now⟩]))

/-- `JobScraper.run_scraper` (lines 132–179): abort silently when the index
fetch failed or no listing was found; an exception while parsing the index
propagates out of the function; otherwise run the per-listing loop. -/
def run_scraper (env : Env) (s : Store) : RunResult :=
  match env.indexDoc with
  | none => ⟨s, [], none⟩
  | some doc =>
    match extract_jobs_from_html doc with
    | .error e => ⟨s, [], some e⟩
    | .ok jobs =>
      if jobs.isEmpty then ⟨s, [], none⟩
      else processJobs env jobs s

/-- Number of successful-insert events for a url in a trace. -/
def countInserts (u : String) : List Event → Nat
  | [] => 0
  | .insertDone v :: tr => (if v == u then 1 else 0) + countInserts u tr
  | _ :: tr => countInserts u tr

/-! ## Concrete scenario fixtures -/

/-- A well-formed listing card: a paragraph title and an anchor whose text
holds company and location separated by a line break. -/
def sampleCard : Node :=
  .elem "div" [("class", "Cols3_item")]
    [.elem "p" [] [.text " Développeur Web "],
     .elem "a" [("href", "emploi/job1")] [.text "Acme Corp\nKinshasa"]]

/-- An index page with one listing group holding one card. -/
def sampleIndex : List Node := [.elem "div" [("class", "Cols3")] [sampleCard]]

/-- The detail url that `extract_jobs_from_html sampleIndex` produces. -/
def sampleUrl : String := "https://www.mediacongo.net/emploi/job1"

/-- A detail page with real text and a script block. -/
def sampleDetail : List Node :=
  [.elem "div" [] [.text " Full text. ", .elem "script" [] [.text "ALERT"]]]

/-- A well-formed chat-completion body: `choices[0].message.content`. -/
def choicesBody : JVal :=
  .obj [("choices", .arr [.obj [("message", .obj [("content", .str "Résumé.")])]])]

/-- A typical error body of a failed completion call: no `choices` member. -/
def errorBody : JVal := .obj [("error", .str "Internal Server Error")]

/-- An environment in which everything succeeds. -/
def envHealthy : Env :=
  ⟨some sampleIndex, fun _ => some sampleDetail,
   fun _ => .response 200 (some choicesBody),
   fun _ => false, fun _ => false, 7⟩

/-- Two listings with distinct urls, used by the loop-shape witnesses. -/
def jobA : Job := ⟨"Développeur Web", "Acme Corp", "Kinshasa", "https://www.mediacongo.net/emploi/jobA"⟩

/-- Second sample listing. -/
def jobB : Job := ⟨"Comptable senior", "Beta SARL", "Goma", "https://www.mediacongo.net/emploi/jobB"⟩

/-- An environment whose store connection fails exactly for `jobA`'s
duplicate check, everything else healthy. -/
def envDbFlaky : Env :=
  ⟨some sampleIndex, fun _ => some sampleDetail,
   fun _ => .response 200 (some choicesBody),
   fun v => v == jobA.url, fun _ => false, 7⟩

/-- An environment in which the summarization endpoint answers the prompt
built from `jobA`'s detail text with HTTP 500 and a typical error body,
while `jobB`'s prompt succeeds. -/
def envMistral500 : Env :=
  ⟨some sampleIndex,
   fun v => if v == jobA.url then some sampleDetail
            else some [.elem "div" [] [.text "Texte B."]],
   fun t => if t == "Full text." then .response 500 (some errorBody)
            else .response 200 (some choicesBody),
   fun _ => false, fun _ => false, 7⟩

/-- A record already stored for `jobA`'s url. -/
def recA : JobRecord :=
  ⟨"Développeur Web", "Acme Corp", "Kinshasa", "https://www.mediacongo.net/emploi/jobA",
   .str "Résumé.", "Informatique / IT", 3⟩

/-- A listing card with a paragraph but no anchor element. -/
def cardNoAnchor : Node :=
  .elem "div" [("class", "Cols3_item")] [.elem "p" [] [.text "Chargé de mission"]]

/-- A listing card with an anchor but no paragraph. -/
def cardNoTitle : Node :=
  .elem "div" [("class", "Cols3_item")]
    [.elem "a" [("href", "emploi/job9")] [.text "Acme Corp\nKinshasa"]]

/-- A listing card whose anchor text has no line break (no location). -/
def cardNoLocation : Node :=
  .elem "div" [("class", "Cols3_item")]
    [.elem "p" [] [.text "Titre"],
     .elem "a" [("href", "emploi/job8")] [.text "Acme Corp"]]

/-! ## Helper lemmas -/

/-- Mutual structural induction for `Node` forests, specialised from the
nested recursor. -/
theorem node_mutual_ind (P : Node → Prop) (Q : List Node → Prop)
    (htext : ∀ s, P (.text s))
    (helem : ∀ t a cs, Q cs → P (.elem t a cs))
    (hnil : Q [])
    (hcons : ∀ c cs, P c → Q cs → Q (c :: cs)) :
    ∀ l : List Node, Q l := by
  have hn : ∀ n : Node, P n := fun n => @Node.rec P Q htext helem hnil hcons n
  intro l
  induction l with
  | nil => exact hnil
  | cons c cs ih => exact hcons c cs (hn c) ih

theorem noBannedList_append (a b : List Node) :
    noBannedList (a ++ b) = (noBannedList a && noBannedList b) := by
  induction a with
  | nil => simp [noBannedList]
  | cons c cs ih => simp [noBannedList, ih, Bool.and_assoc]

theorem piecesList_append (a b : List Node) :
    piecesList (a ++ b) = piecesList a ++ piecesList b := by
  induction a with
  | nil => simp [piecesList]
  | cons c cs ih => simp [piecesList, ih]

theorem storeHas_append (s : Store) (e : JobRecord) (u : String) :
    storeHas (s ++ [e]) u = (storeHas s u || (e.url == u)) := by
  simp [storeHas]

theorem countUrl_append (s : Store) (e : JobRecord) (u : String) :
    countUrl (s ++ [e]) u = countUrl s u + (if e.url == u then 1 else 0) := by
  simp only [countUrl, List.filter_append]
  by_cases h : e.url == u <;> simp [h, List.filter]

theorem countUrl_zero_iff (s : Store) (u : String) :
    countUrl s u = 0 ↔ storeHas s u = false := by
  induction s with
  | nil => simp [countUrl, storeHas]
  | cons r rs ih =>
    by_cases h : r.url == u
    · simp [countUrl, storeHas, List.filter, h]
    · simp only [countUrl, storeHas, List.filter, List.any_cons, h, Bool.false_or]
      simp only [countUrl, storeHas] at ih
      exact ih

theorem countInserts_append (u : String) (a b : List Event) :
    countInserts u (a ++ b) = countInserts u a + countInserts u b := by
  induction a with
  | nil => simp [countInserts]
  | cons e tr ih =>
    cases e <;> simp [countInserts, ih]
    omega

/-- Count accounting: records with a given url grow by exactly the number
of successful-insert events for that url. -/
theorem processJobs_countUrl (env : Env) (u : String) :
    ∀ (jobs : List Job) (s : Store),
    countUrl (processJobs env jobs s).store u
      = countUrl s u + countInserts u (processJobs env jobs s).trace := by
  intro jobs
  induction jobs with
  | nil => intro s; simp [processJobs, countInserts]
  | cons job rest ih =>
    intro s
    cases h1 : env.findOneRaises job.url with
    | true => simp [processJobs, h1, countInserts]
    | false =>
      cases h2 : storeHas s job.url with
      | true => simp [processJobs, h1, h2, withEvents, countInserts, ih s]
      | false =>
        rcases h3 : extract_full_text (env.detailDoc job.url) with _ | txt
        · simp [processJobs, h1, h2, h3, withEvents, countInserts, ih s]
        · cases h4 : (txt == "") with
          | true => simp [processJobs, h1, h2, h3, h4, withEvents, countInserts, ih s]
          | false =>
            rcases h5 : summarize_with_mistral (env.mistralResp txt) with _ | r
            · simp [processJobs, h1, h2, h3, h4, h5, withEvents, countInserts, ih s]
            · cases h6 : env.insertRaises job.url with
              | true => simp [processJobs, h1, h2, h3, h4, h5, h6, withEvents, countInserts, ih s]
              | false =>
                simp only [processJobs, h1, h2, h3, h4, h5, h6, withEvents, ih,
                  countUrl_append, countInserts_append, Bool.false_eq_true, if_false]
                simp [countInserts]
                omega

/-- A url already present in the store is never inserted again by a run:
every iteration's insert is preceded by the `find_one` existence check. -/
theorem processJobs_noInsert (env : Env) (u : String) :
    ∀ (jobs : List Job) (s : Store), storeHas s u = true →
    countInserts u (processJobs env jobs s).trace = 0 := by
  intro jobs
  induction jobs with
  | nil => intro s _; simp [processJobs, countInserts]
  | cons job rest ih =>
    intro s hs
    cases h1 : env.findOneRaises job.url with
    | true => simp [processJobs, h1, countInserts]
    | false =>
      cases h2 : storeHas s job.url with
      | true => simp [processJobs, h1, h2, withEvents, countInserts, ih s hs]
      | false =>
        have hne : (job.url == u) = false := by
          cases hq : (job.url == u) with
          | false => rfl
          | true =>
            rw [eq_of_beq hq] at h2
            rw [h2] at hs
            exact Bool.noConfusion hs
        rcases h3 : extract_full_text (env.detailDoc job.url) with _ | txt
        · simp [processJobs, h1, h2, h3, withEvents, countInserts, ih s hs]
        · cases h4 : (txt == "") with
          | true => simp [processJobs, h1, h2, h3, h4, withEvents, countInserts, ih s hs]
          | false =>
            rcases h5 : summarize_with_mistral (env.mistralResp txt) with _ | r
            · simp [processJobs, h1, h2, h3, h4, h5, withEvents, countInserts, ih s hs]
            · cases h6 : env.insertRaises job.url with
              | true =>
                simp [processJobs, h1, h2, h3, h4, h5, h6, withEvents, countInserts, ih s hs]
              | false =>
                have hs2 : storeHas (s ++ [(⟨job.title, job.company, job.location, job.url, r,
                    categorize_job job.title, env.now⟩ : JobRecord)]) u = true := by
                  rw [storeHas_append]
                  simp [hs]
                simp only [processJobs, h1, h2, h3, h4, h5, h6, withEvents,
                  countInserts_append, Bool.false_eq_true, if_false, ih _ hs2]
                simp [countInserts, hne]

/-- A url absent from the store is inserted at most once in one run: the
first successful insert makes every later `find_one` check find it. -/
theorem processJobs_insert_le_one (env : Env) (u : String) :
    ∀ (jobs : List Job) (s : Store), storeHas s u = false →
    countInserts u (processJobs env jobs s).trace ≤ 1 := by
  intro jobs
  induction jobs with
  | nil => intro s _; simp [processJobs, countInserts]
  | cons job rest ih =>
    intro s hs
    cases h1 : env.findOneRaises job.url with
    | true => simp [processJobs, h1, countInserts]
    | false =>
      cases h2 : storeHas s job.url with
      | true => simpa [processJobs, h1, h2, withEvents, countInserts] using ih s hs
      | false =>
        rcases h3 : extract_full_text (env.detailDoc job.url) with _ | txt
        · simpa [processJobs, h1, h2, h3, withEvents, countInserts] using ih s hs
        · cases h4 : (txt == "") with
          | true => simpa [processJobs, h1, h2, h3, h4, withEvents, countInserts] using ih s hs
          | false =>
            rcases h5 : summarize_with_mistral (env.mistralResp txt) with _ | r
            · simpa [processJobs, h1, h2, h3, h4, h5, withEvents, countInserts] using ih s hs
            · cases h6 : env.insertRaises job.url with
              | true =>
                simpa [processJobs, h1, h2, h3, h4, h5, h6, withEvents, countInserts]
                  using ih s hs
              | false =>
                cases hq : (job.url == u) with
                | true =>
                  have hs2 : storeHas (s ++ [(⟨job.title, job.company, job.location, job.url, r,
                      categorize_job job.title, env.now⟩ : JobRecord)]) u = true := by
                    rw [storeHas_append]
                    simp [hq]
                  have hz := processJobs_noInsert env u rest _ hs2
                  simp only [processJobs, h1, h2, h3, h4, h5, h6, withEvents,
                    countInserts_append, Bool.false_eq_true, if_false, hz]
                  simp [countInserts, hq]
                | false =>
                  have hs2 : storeHas (s ++ [(⟨job.title, job.company, job.location, job.url, r,
                      categorize_job job.title, env.now⟩ : JobRecord)]) u = false := by
                    rw [storeHas_append]
                    simp [hq, hs]
                  have hle := ih _ hs2
                  simp only [processJobs, h1, h2, h3, h4, h5, h6, withEvents,
                    countInserts_append, Bool.false_eq_true, if_false]
                  simp [countInserts, hq]
                  omega

theorem run_scraper_countUrl (env : Env) (s : Store) (u : String) :
    countUrl (run_scraper env s).store u
      = countUrl s u + countInserts u (run_scraper env s).trace := by
  unfold run_scraper
  rcases env.indexDoc with _ | doc
  · simp [countInserts]
  · rcases he : extract_jobs_from_html doc with e | jobs
    · simp [he, countInserts]
    · rcases jobs with _ | ⟨j, rest⟩
      · simp [he, countInserts]
      · simp [he, countInserts, processJobs_countUrl]

theorem run_scraper_noInsert (env : Env) (s : Store) (u : String)
    (h : storeHas s u = true) :
    countInserts u (run_scraper env s).trace = 0 := by
  unfold run_scraper
  rcases env.indexDoc with _ | doc
  · simp [countInserts]
  · rcases he : extract_jobs_from_html doc with e | jobs
    · simp [he, countInserts]
    · rcases jobs with _ | ⟨j, rest⟩
      · simp [he, countInserts]
      · simp [he, countInserts, processJobs_noInsert env u (j :: rest) s h]

theorem run_scraper_insert_le_one (env : Env) (s : Store) (u : String)
    (h : storeHas s u = false) :
    countInserts u (run_scraper env s).trace ≤ 1 := by
  unfold run_scraper
  rcases env.indexDoc with _ | doc
  · simp [countInserts]
  · rcases he : extract_jobs_from_html doc with e | jobs
    · simp [he, countInserts]
    · rcases jobs with _ | ⟨j, rest⟩
      · simp [he, countInserts]
      · simp [he, countInserts, processJobs_insert_le_one env u (j :: rest) s h]

/-! ## Claim theorems -/

/-- C1: Idempotence of the pipeline with respect to the store.  For every
pair of sequential runs (any environments, in particular two runs against
the same unchanged index page) starting from a store holding at most one
record for a url, the two runs insert at most one record for that url in
total — every insert is preceded by the `find_one` existence check — and
the store invariant "at most one record per url" is preserved. -/
theorem run_twice_inserts_at_most_once (env1 env2 : Env) (s0 : Store) (u : String)
    (h : countUrl s0 u ≤ 1) :
    countInserts u (run_scraper env1 s0).trace
      + countInserts u (run_scraper env2 (run_scraper env1 s0).store).trace ≤ 1
    ∧ countUrl (run_scraper env2 (run_scraper env1 s0).store).store u ≤ 1 := by
  have e1 := run_scraper_countUrl env1 s0 u
  have e2 := run_scraper_countUrl env2 (run_scraper env1 s0).store u
  by_cases hc : countUrl s0 u = 0
  · have hs0 : storeHas s0 u = false := (countUrl_zero_iff s0 u).mp hc
    have i1 := run_scraper_insert_le_one env1 s0 u hs0
    by_cases hi1 : countInserts u (run_scraper env1 s0).trace = 0
    · have hc1 : countUrl (run_scraper env1 s0).store u = 0 := by omega
      have hs1 := (countUrl_zero_iff (run_scraper env1 s0).store u).mp hc1
      have i2 := run_scraper_insert_le_one env2 (run_scraper env1 s0).store u hs1
      constructor <;> omega
    · have hs1 : storeHas (run_scraper env1 s0).store u = true := by
        cases hq : storeHas (run_scraper env1 s0).store u with
        | true => rfl
        | false =>
          have := (countUrl_zero_iff (run_scraper env1 s0).store u).mpr hq
          omega
      have i2 := run_scraper_noInsert env2 (run_scraper env1 s0).store u hs1
      constructor <;> omega
  · have hs0 : storeHas s0 u = true := by
      cases hq : storeHas s0 u with
      | true => rfl
      | false =>
        have := (countUrl_zero_iff s0 u).mpr hq
        omega
    have i1 := run_scraper_noInsert env1 s0 u hs0
    have hs1 : storeHas (run_scraper env1 s0).store u = true := by
      cases hq : storeHas (run_scraper env1 s0).store u with
      | true => rfl
      | false =>
        have := (countUrl_zero_iff (run_scraper env1 s0).store u).mpr hq
        omega
    have i2 := run_scraper_noInsert env2 (run_scraper env1 s0).store u hs1
    constructor <;> omega

/-- C1 witness: a healthy environment run twice against an empty store
inserts the sample listing's url exactly once in total. -/
theorem run_twice_inserts_at_most_once_witness :
    countUrl ([] : Store) sampleUrl ≤ 1 ∧
    (countInserts sampleUrl (run_scraper envHealthy []).trace
        + countInserts sampleUrl
            (run_scraper envHealthy (run_scraper envHealthy []).store).trace ≤ 1
      ∧ countUrl (run_scraper envHealthy (run_scraper envHealthy []).store).store sampleUrl ≤ 1) :=
  ⟨by decide, run_twice_inserts_at_most_once envHealthy envHealthy [] sampleUrl (by decide)⟩

/-- C3 counterexample: with the store connection failing on `jobA`'s
duplicate check and everything else healthy, the run aborts with the
uncaught pymongo exception and `jobB` — which a solo run would insert — is
never processed: the claim that the failure is fatal only to the one
listing and the run proceeds with the remaining listings is false. -/
theorem findOne_failure_not_listing_local :
    (processJobs envDbFlaky [jobA, jobB] []).store.length = 0
    ∧ (processJobs envDbFlaky [jobA, jobB] []).err = some PyErr.dbError
    ∧ (processJobs envDbFlaky [jobB] []).store.length = 1 :=
  ⟨rfl, rfl, rfl⟩

/-- C3 (amended): a store-connectivity failure raised during the
`find_one` duplicate check is fatal to the whole run, not just to the
current listing: line 149 sits in no `try` block, so the exception
propagates out of the loop at once — the store is left as it was, the only
event of the iteration is the `find_one` call, and no later listing is
processed.  Only `insert_one` failures are caught and listing-fatal. -/
theorem findOne_failure_aborts_run (env : Env) (job : Job) (rest : List Job) (s : Store)
    (h : env.findOneRaises job.url = true) :
    processJobs env (job :: rest) s = ⟨s, [.findOneCall job.url], some .dbError⟩ := by
  simp [processJobs, h]

/-- C3 witness: the amended statement at the flaky environment. -/
theorem findOne_failure_aborts_run_witness :
    envDbFlaky.findOneRaises jobA.url = true
    ∧ processJobs envDbFlaky [jobA, jobB] []
        = ⟨[], [.findOneCall jobA.url], some .dbError⟩ :=
  ⟨by decide, findOne_failure_aborts_run envDbFlaky jobA [jobB] [] (by decide)⟩

/-- C7: a listing whose url is already stored is skipped before any
further work — the iteration's only collaborator call is the `find_one`
check (no detail fetch, no summarization call, no insert), the store is
unchanged for it, and the loop continues with the remaining listings. -/
theorem duplicate_skipped_before_any_work (env : Env) (job : Job) (rest : List Job) (s : Store)
    (h1 : env.findOneRaises job.url = false) (h2 : storeHas s job.url = true) :
    processJobs env (job :: rest) s
      = withEvents [.findOneCall job.url] (processJobs env rest s) := by
  simp [processJobs, h1, h2]

/-- C7 witness: with `jobA` already stored, its iteration is exactly the
duplicate check. -/
theorem duplicate_skipped_before_any_work_witness :
    (envHealthy.findOneRaises jobA.url = false ∧ storeHas [recA] jobA.url = true)
    ∧ processJobs envHealthy [jobA] [recA]
        = withEvents [.findOneCall jobA.url] (processJobs envHealthy [] [recA]) :=
  ⟨⟨rfl, by decide⟩,
   duplicate_skipped_before_any_work envHealthy jobA [] [recA] rfl (by decide)⟩

/-- C4 counterexample: `summarize_with_mistral` never inspects the HTTP
status (`raise_for_status` is not called), so a 500 response whose body
happens to be a well-formed completion is accepted and a summary is
returned — "non-2xx implies Failure" is false on the code. -/
theorem summarize_ignores_status_counterexample :
    summarize_with_mistral (.response 500 (some choicesBody)) = some (.str "Résumé.") := rfl

/-- C4 (amended): the summarizer signals Failure based on the body, not
the status: for any response — e.g. a 500 — whose body lacks a `"choices"`
member (the typical error shape), it returns `None`; the pipeline then
skips the listing after the `find_one` check, the detail fetch and the
summarization call, writes no record for it, and continues with the
remaining listings. -/
theorem summarize_failure_skips_listing (env : Env) (job : Job) (rest : List Job) (s : Store)
    (txt : String) (st : Nat) (body : JVal)
    (h1 : env.findOneRaises job.url = false)
    (h2 : storeHas s job.url = false)
    (h3 : extract_full_text (env.detailDoc job.url) = some txt)
    (h4 : (txt == "") = false)
    (h5 : env.mistralResp txt = .response st (some body))
    (h6 : pyInOp "choices" body = .ok false) :
    summarize_with_mistral (env.mistralResp txt) = none
    ∧ processJobs env (job :: rest) s
      = withEvents [.findOneCall job.url, .detailFetch job.url, .mistralCall job.url]
          (processJobs env rest s) := by
  have hsum : summarize_with_mistral (env.mistralResp txt) = none := by
    rw [h5]
    simp [summarize_with_mistral, h6]
  exact ⟨hsum, by simp [processJobs, h1, h2, h3, h4, hsum]⟩

/-- C4 witness: the amended statement at the 500-for-`jobA` environment,
with `jobB` still processed afterwards. -/
theorem summarize_failure_skips_listing_witness :
    (envMistral500.findOneRaises jobA.url = false
      ∧ storeHas [] jobA.url = false
      ∧ extract_full_text (envMistral500.detailDoc jobA.url) = some "Full text."
      ∧ (("Full text." : String) == "") = false
      ∧ envMistral500.mistralResp "Full text." = .response 500 (some errorBody)
      ∧ pyInOp "choices" errorBody = .ok false)
    ∧ (summarize_with_mistral (envMistral500.mistralResp "Full text.") = none
        ∧ processJobs envMistral500 [jobA, jobB] []
          = withEvents [.findOneCall jobA.url, .detailFetch jobA.url, .mistralCall jobA.url]
              (processJobs envMistral500 [jobB] [])) :=
  ⟨⟨rfl, by decide, rfl, rfl, rfl, rfl⟩,
   summarize_failure_skips_listing envMistral500 jobA [jobB] [] "Full text." 500 errorBody
     rfl (by decide) rfl rfl rfl rfl⟩

/-- C5: the category table is tested in order and the first substring
match wins; since "Informatique / IT" is the first entry and both
"développeur" and "technicien" are in its keyword list, any title whose
lower-cased form contains either keyword is categorized "Informatique /
IT" — in particular "technicien", which also sits in the later
"Ingénierie / BTP" list, is won by IT because IT is checked first. -/
theorem categorize_developpeur_technicien_IT (t : String)
    (h : pyContainsSub (pyLower t) "développeur" = true
       ∨ pyContainsSub (pyLower t) "technicien" = true) :
    categorize_job t = "Informatique / IT" := by
  rcases h with h | h <;> simp [categorize_job, categories, List.find?, h]

/-- C5 witness: a concrete "développeur" title and a concrete "technicien"
title land in IT. -/
theorem categorize_developpeur_technicien_IT_witness :
    (pyContainsSub (pyLower "Développeur Web") "développeur" = true
      ∨ pyContainsSub (pyLower "Développeur Web") "technicien" = true)
    ∧ categorize_job "Développeur Web" = "Informatique / IT"
    ∧ categorize_job "Technicien de maintenance" = "Informatique / IT" :=
  ⟨Or.inl (by decide),
   categorize_developpeur_technicien_IT "Développeur Web" (Or.inl (by decide)),
   categorize_developpeur_technicien_IT "Technicien de maintenance" (Or.inr (by decide))⟩

/-- C6 counterexample: on a title matching no keyword the function
returns the French label "Autre", not the literal "Other" the claim
names. -/
theorem categorize_no_match_not_Other :
    categorize_job "zzz" = "Autre" ∧ categorize_job "zzz" ≠ "Other" := by
  exact ⟨rfl, by decide⟩

/-- C6 (amended): for every title whose lower-cased form contains no
keyword of any category of the table, `categorize_job` returns the
fallback label "Autre" (the code's French spelling of the spec's
"Other"). -/
theorem categorize_no_keyword_Autre (t : String)
    (h : ∀ p ∈ categories, ∀ w ∈ p.2, pyContainsSub (pyLower t) w = false) :
    categorize_job t = "Autre" := by
  have hfind : categories.find?
      (fun c => c.2.any (fun w => pyContainsSub (pyLower t) w)) = none := by
    rw [List.find?_eq_none]
    intro x hx hpx
    obtain ⟨w, hw, hcw⟩ := List.any_eq_true.mp hpx
    rw [h x hx w hw] at hcw
    exact Bool.noConfusion hcw
  simp [categorize_job, hfind]

/-- C6 witness: "zzz" contains no keyword and is labelled "Autre". -/
theorem categorize_no_keyword_Autre_witness :
    (∀ p ∈ categories, ∀ w ∈ p.2, pyContainsSub (pyLower "zzz") w = false)
    ∧ categorize_job "zzz" = "Autre" :=
  ⟨by decide, categorize_no_keyword_Autre "zzz" (by decide)⟩

/-- C9: the two-letter keyword "it" is matched as a raw substring and the
IT category is the first table entry, so every title whose lower-cased
form contains "it" anywhere — also inside an unrelated word — is
categorized "Informatique / IT", whatever other categories' keywords it
contains. -/
theorem categorize_it_substring_IT (t : String)
    (h : pyContainsSub (pyLower t) "it" = true) :
    categorize_job t = "Informatique / IT" := by
  simp [categorize_job, categories, List.find?, h]

/-- C9 witness: "Agent de sécurité" (the "it" inside "sécurité") is
labelled IT even though it matches no intended IT keyword, and so is
"Hôpital général" despite "hôpital" heading the Health list. -/
theorem categorize_it_substring_IT_witness :
    pyContainsSub (pyLower "Agent de sécurité") "it" = true
    ∧ categorize_job "Agent de sécurité" = "Informatique / IT"
    ∧ categorize_job "Hôpital général" = "Informatique / IT" :=
  ⟨by decide,
   categorize_it_substring_IT "Agent de sécurité" (by decide),
   categorize_it_substring_IT "Hôpital général" (by decide)⟩

/-- C2: the missing-paragraph and missing-location degradations do default
to "N/A" as claimed, but a card with no anchor does not: line 70
(`job_card.find("a").text`) dereferences the absent anchor before line
77's guard can apply, so the extraction raises `AttributeError` instead of
yielding a JobListing with detailUrl "N/A". -/
theorem parser_raises_on_card_without_anchor :
    extract_jobs_from_html [.elem "div" [("class", "Cols3")] [cardNoAnchor]]
        = .error PyErr.attrError
    ∧ extract_jobs_from_html [.elem "div" [("class", "Cols3")] [cardNoTitle]]
        = .ok [⟨"N/A", "Acme Corp", "Kinshasa", "https://www.mediacongo.net/emploi/job9"⟩]
    ∧ extract_jobs_from_html [.elem "div" [("class", "Cols3")] [cardNoLocation]]
        = .ok [⟨"Titre", "Acme Corp", "N/A", "https://www.mediacongo.net/emploi/job8"⟩] :=
  ⟨rfl, rfl, rfl⟩

/-- Soundness of the tag-stripping pass, proved by mutual structural
induction over the document forest: the stripped document contains no
banned-tag element, and its text nodes are exactly the original text
nodes lying outside every banned-tag subtree. -/
theorem strip_sound :
    ∀ l : List Node,
      noBannedList (stripTagsList l) = true
      ∧ piecesList (stripTagsList l) = cleanPiecesList l := by
  refine node_mutual_ind
    (fun n => noBannedList (stripTop n) = true ∧ piecesList (stripTop n) = cleanPieces n)
    (fun l => noBannedList (stripTagsList l) = true
      ∧ piecesList (stripTagsList l) = cleanPiecesList l)
    ?_ ?_ ?_ ?_
  · intro s
    constructor <;> simp [stripTop, noBannedList, noBanned, piecesList, pieces, cleanPieces]
  · rintro t a cs ⟨q1, q2⟩
    cases hb : bannedTags.any (fun b => b == t) with
    | true =>
      constructor <;> simp [stripTop, hb, noBannedList, piecesList, cleanPieces]
    | false =>
      constructor
      · simp [stripTop, hb, noBannedList, noBanned, q1]
      · simp [stripTop, hb, piecesList, pieces, cleanPieces, q2]
  · constructor <;> simp [stripTagsList, noBannedList, piecesList, cleanPiecesList]
  · rintro c cs ⟨p1, p2⟩ ⟨q1, q2⟩
    constructor
    · simp [stripTagsList, noBannedList_append, p1, q1]
    · simp [stripTagsList, piecesList_append, p2, q2, cleanPiecesList]

/-- C8: `extract_full_text` removes every banned-tag node (script, style,
noscript, iframe, meta, header, footer) together with its subtree before
collecting text: the stripped tree has no banned element, the text it
collects is exactly the text outside banned subtrees, and the returned
string is built from those clean pieces only — in particular, on the
sample detail page the script block's "ALERT" does not reach the output. -/
theorem extract_full_text_removes_banned (doc : List Node) :
    noBannedList (stripTagsList doc) = true
    ∧ piecesList (stripTagsList doc) = cleanPiecesList doc
    ∧ extract_full_text (some doc)
        = some ⟨joinNl (((cleanPiecesList doc).map (fun s => (pyStrip s).data)).filter
            (fun p => !p.isEmpty))⟩
    ∧ extract_full_text (some sampleDetail) = some "Full text." := by
  obtain ⟨h1, h2⟩ := strip_sound doc
  refine ⟨h1, h2, ?_, rfl⟩
  simp [extract_full_text, getTextStripped, h2]

/-- C10: `summarize_with_mistral` is total over endpoint behaviours — a
transport exception, an invalid-JSON body, a JSON body of the wrong type,
a body without "choices", an empty choices list, a choice missing
"message" or "content", or a non-indexable choices value all flow to the
`None` failure signal through the `except` handlers; no exception escapes
into the pipeline loop, whatever the HTTP status. -/
theorem summarize_total_on_failures (st : Nat) :
    summarize_with_mistral .raised = none
    ∧ summarize_with_mistral (.response st none) = none
    ∧ summarize_with_mistral (.response st (some (.obj [("error", .str "x")]))) = none
    ∧ summarize_with_mistral (.response st (some (.obj [("choices", .arr [])]))) = none
    ∧ summarize_with_mistral (.response st (some (.obj [("choices", .arr [.obj []])]))) = none
    ∧ summarize_with_mistral
        (.response st (some (.obj [("choices", .arr [.obj [("message", .obj [])]])]))) = none
    ∧ summarize_with_mistral (.response st (some (.num 500))) = none
    ∧ summarize_with_mistral (.response st (some (.str "Internal Server Error"))) = none
    ∧ summarize_with_mistral (.response st (some (.obj [("choices", .str "none")]))) = none :=
  ⟨rfl, rfl, rfl, rfl, rfl, rfl, rfl, rfl, rfl⟩
